import Mathlib

/-!
Verification of the ConcaveHull core of raycloudtools
(src/raylib/rayconcavehull.h and the spec-documented growth engine).

Doubles are modelled as exact rationals (ℚ); machine `int` indices as ℤ.
Eigen::Vector3d becomes the `ray.Vec3` record below.  The std::vector
stores become Lean `List`s addressed through total lookup functions that
return the C++ default-constructed record out of range (the C++ code
never performs such an access on well-formed meshes; claim C9 makes the
guarding explicit for `insideTetrahedron`).
-/

namespace ray

/-- Eigen::Vector3d modelled over exact rationals. -/
structure Vec3 where
  x : ℚ
  y : ℚ
  z : ℚ
deriving DecidableEq

def Vec3.zero : Vec3 := ⟨0, 0, 0⟩

instance : Add Vec3 := ⟨fun a b => ⟨a.x + b.x, a.y + b.y, a.z + b.z⟩⟩

instance : Sub Vec3 := ⟨fun a b => ⟨a.x - b.x, a.y - b.y, a.z - b.z⟩⟩

/-- Scalar multiple of a vector (`v / 4.0` in the source is `scale (1/4) v`). -/
def Vec3.scale (q : ℚ) (v : Vec3) : Vec3 := ⟨q * v.x, q * v.y, q * v.z⟩

/-- Eigen dot product. -/
def Vec3.dot (a b : Vec3) : ℚ := a.x * b.x + a.y * b.y + a.z * b.z

/-- Eigen cross product. -/
def Vec3.cross (a b : Vec3) : Vec3 :=
  ⟨a.y * b.z - a.z * b.y, a.z * b.x - a.x * b.z, a.x * b.y - a.y * b.x⟩

/-- Squared Euclidean norm. -/
def Vec3.normSq (a : Vec3) : ℚ := a.dot a

/-- ConcaveHull::SurfaceFace (rayconcavehull.h:29-36): a candidate record,
a (tetrahedron index, triangle index, curvature) triple. -/
structure SurfaceFace where
  tetrahedron : ℤ
  triangle : ℤ
  curvature : ℚ
deriving DecidableEq

/-- ConcaveHull::SurfaceFace default constructor sets triangle = -1. -/
def SurfaceFace.init : SurfaceFace := ⟨0, -1, 0⟩

/-- ConcaveHull::Edge (rayconcavehull.h:38-50). -/
structure Edge where
  vertices : Fin 2 → ℤ
  has_had_face : Bool
deriving DecidableEq

/-- ConcaveHull::Triangle (rayconcavehull.h:51-68). -/
structure Triangle where
  is_surface : Bool
  used : Bool
  vertices : Fin 3 → ℤ
  edges : Fin 3 → ℤ
  tetrahedra : Fin 2 → ℤ
  surface_face_cached : SurfaceFace
deriving DecidableEq

/-- ConcaveHull::Triangle default constructor (rayconcavehull.h:54-60):
all vertex/edge indices -1, flags false.  (tetrahedra is left
uninitialised in C++; the model uses -1, the absent marker the rest of
the code relies on.) -/
def Triangle.init : Triangle :=
  { is_surface := false
    used := false
    vertices := fun _ => -1
    edges := fun _ => -1
    tetrahedra := fun _ => -1
    surface_face_cached := SurfaceFace.init }

/-- ConcaveHull::Triangle::valid (rayconcavehull.h:61). -/
def Triangle.valid (t : Triangle) : Bool := t.vertices 0 != -1

/-- ConcaveHull::Tetrahedron (rayconcavehull.h:69-84). -/
structure Tetrahedron where
  vertices : Fin 4 → ℤ
  triangles : Fin 4 → ℤ
  neighbours : Fin 4 → ℤ
  id : ℤ
  seen : Bool
deriving DecidableEq

/-- ConcaveHull::Tetrahedron default constructor (rayconcavehull.h:72-77). -/
def Tetrahedron.init : Tetrahedron :=
  { vertices := fun _ => -1
    triangles := fun _ => -1
    neighbours := fun _ => -1
    id := -1
    seen := false }

/-- ConcaveHull::Tetrahedron::valid (rayconcavehull.h:78): checks only
vertex index 0. -/
def Tetrahedron.valid (t : Tetrahedron) : Bool := t.vertices 0 != -1

/-- The ConcaveHull object state (rayconcavehull.h:102-108): the point
store and the mesh arenas.  The std::set member `surface` is modelled
as the sorted candidate list inside `GrowState` further down. -/
structure ConcaveHull where
  vertex_on_surface : List Bool
  vertices : List Vec3
  edges : List Edge
  triangles : List Triangle
  tetrahedra : List Tetrahedron
  centre : Vec3
deriving DecidableEq

/-- Total model of `vertices[i]` on a std::vector indexed by an int:
out-of-range (including negative) indices give the zero vector. -/
def getVertex (h : ConcaveHull) (i : ℤ) : Vec3 :=
  if i < 0 then Vec3.zero else (h.vertices.get? i.toNat).getD Vec3.zero

/-- Total model of `triangles[i]`: out of range gives the
default-constructed Triangle. -/
def getTriangle (h : ConcaveHull) (i : ℤ) : Triangle :=
  if i < 0 then Triangle.init else (h.triangles.get? i.toNat).getD Triangle.init

/-- Model of `tetrahedra[i]` as an Option, used by the growth model to
recognise out-of-range links. -/
def getTetra (h : ConcaveHull) (i : ℤ) : Option Tetrahedron :=
  if i < 0 then none else h.tetrahedra.get? i.toNat

/-- The centroid `mid` of rayconcavehull.h:87-91: the four vertices each
scaled by 1/4 and summed. -/
def tetCentroid (h : ConcaveHull) (t : Tetrahedron) : Vec3 :=
  Vec3.scale (1/4) (getVertex h (t.vertices 0) + getVertex h (t.vertices 1) +
    getVertex h (t.vertices 2) + getVertex h (t.vertices 3))

/-- The face normal of rayconcavehull.h:94-96: for bounding triangle
`triIdx`, the cross product (vs[1]-vs[0]) × (vs[2]-vs[0]). -/
def faceNormal (h : ConcaveHull) (triIdx : ℤ) : Vec3 :=
  let t := getTriangle h triIdx
  Vec3.cross (getVertex h (t.vertices 1) - getVertex h (t.vertices 0))
    (getVertex h (t.vertices 2) - getVertex h (t.vertices 0))

/-- The signed (scaled) distance of point p from the plane of bounding
triangle `triIdx`: (p - vs[0]).dot(normal) of rayconcavehull.h:97. -/
def signedDist (h : ConcaveHull) (p : Vec3) (triIdx : ℤ) : ℚ :=
  let t := getTriangle h triIdx
  Vec3.dot (p - getVertex h (t.vertices 0)) (faceNormal h triIdx)

/-- One iteration of the face loop of rayconcavehull.h:92-99: the face
does NOT reject the point when the product of the two signed distances
is non-negative. -/
def faceOk (h : ConcaveHull) (pos mid : Vec3) (triIdx : ℤ) : Bool :=
  !(decide (signedDist h pos triIdx * signedDist h mid triIdx < 0))

/-- ConcaveHull::insideTetrahedron (rayconcavehull.h:85-101): false for
an outer tetrahedron (any vertex index -1), otherwise the conjunction
of the four face tests against the centroid `mid`. -/
def insideTetrahedron (h : ConcaveHull) (pos : Vec3) (tetra : Tetrahedron) : Bool :=
  if tetra.vertices 0 = -1 ∨ tetra.vertices 1 = -1 ∨ tetra.vertices 2 = -1 ∨
      tetra.vertices 3 = -1 then
    false
  else
    let mid := tetCentroid h tetra
    faceOk h pos mid (tetra.triangles 0) && faceOk h pos mid (tetra.triangles 1) &&
      faceOk h pos mid (tetra.triangles 2) && faceOk h pos mid (tetra.triangles 3)

/-- ConcaveHull::FaceComp::operator() (rayconcavehull.h:110-123). -/
def faceComp (lhs rhs : SurfaceFace) : Bool :=
  if lhs.curvature = rhs.curvature then
    if lhs.triangle = rhs.triangle then decide (lhs.tetrahedron < rhs.tetrahedron)
    else decide (lhs.triangle < rhs.triangle)
  else decide (lhs.curvature < rhs.curvature)

/-- Lexicographic strict order on the (curvature, triangle, tetrahedron)
triple, written from the words of the spec (§3) for comparison with
`faceComp`. -/
def faceLexLess (a b : SurfaceFace) : Prop :=
  a.curvature < b.curvature ∨
    (a.curvature = b.curvature ∧
      (a.triangle < b.triangle ∨ (a.triangle = b.triangle ∧ a.tetrahedron < b.tetrahedron)))

/-- The strict comparator as a relation, for sortedness statements. -/
def faceLt (a b : SurfaceFace) : Prop := faceComp a b = true

/-- One array access performed by `insideTetrahedron`: a read of
`vertices[i]` or of `triangles[i]`. -/
inductive MeshAccess where
  | vertexAt (i : ℤ)
  | triangleAt (i : ℤ)
deriving DecidableEq

/-- The accesses of one iteration of the face loop
(rayconcavehull.h:94-95): the read of `triangles[tetra.triangles[i]]`
followed by the three vertex reads `vertices[tri.vertices[j]]`. -/
def faceAccesses (h : ConcaveHull) (triIdx : ℤ) : List MeshAccess :=
  let t := getTriangle h triIdx
  [MeshAccess.triangleAt triIdx, MeshAccess.vertexAt (t.vertices 0),
    MeshAccess.vertexAt (t.vertices 1), MeshAccess.vertexAt (t.vertices 2)]

/-- The accesses of the face loop of rayconcavehull.h:92-99, with the
early `return false` cutting the loop short after a failing face test. -/
def insideAccessLoop (h : ConcaveHull) (pos mid : Vec3) (tetra : Tetrahedron) :
    List (Fin 4) → List MeshAccess
  | [] => []
  | i :: rest =>
    faceAccesses h (tetra.triangles i) ++
      (if faceOk h pos mid (tetra.triangles i) then insideAccessLoop h pos mid tetra rest
       else [])

/-- The exact sequence of vertex/triangle array accesses performed by
`insideTetrahedron` (rayconcavehull.h:85-101): nothing when the sentinel
guard of line 88 fires, otherwise the four centroid vertex reads of line
91 followed by the face-loop accesses. -/
def insideTetrahedronAccesses (h : ConcaveHull) (pos : Vec3) (tetra : Tetrahedron) :
    List MeshAccess :=
  if tetra.vertices 0 = -1 ∨ tetra.vertices 1 = -1 ∨ tetra.vertices 2 = -1 ∨
      tetra.vertices 3 = -1 then
    []
  else
    [MeshAccess.vertexAt (tetra.vertices 0), MeshAccess.vertexAt (tetra.vertices 1),
      MeshAccess.vertexAt (tetra.vertices 2), MeshAccess.vertexAt (tetra.vertices 3)] ++
      insideAccessLoop h pos (tetCentroid h tetra) tetra [0, 1, 2, 3]

/-- Modelled from the spec: the curvature sentinel for numerically
degenerate geometry (§7: degenerate input is "treated as maximally
sharp, lowest growth priority"). -/
def sentinelCurvature : ℚ := 10 ^ 12

/-- Modelled from the spec: `ConcaveHull::circumcurvature` — only its
declaration (rayconcavehull.h:129) is in src/.  §4.2 asks for a
non-negative scalar derived from the local circumsphere geometry,
higher when the circumradius is small relative to the triangle's size;
§7 asks that degenerate geometry map to a well-defined sentinel.  The
exact formula is an open design point (§9); the model uses the squared
triangle area over the product of the squared edge lengths (an
inverse-squared-circumradius scale) with the zero-area guard. -/
def circumcurvature (h : ConcaveHull) (tetra : Tetrahedron) (triangleID : ℤ) : ℚ :=
  let t := getTriangle h triangleID
  let v0 := getVertex h (t.vertices 0)
  let v1 := getVertex h (t.vertices 1)
  let v2 := getVertex h (t.vertices 2)
  let areaSq := Vec3.normSq (Vec3.cross (v1 - v0) (v2 - v0))
  let edgeSq := Vec3.normSq (v1 - v0) * Vec3.normSq (v2 - v1) * Vec3.normSq (v0 - v2)
  if areaSq = 0 ∨ edgeSq = 0 then sentinelCurvature
  else areaSq / edgeSq

/-- Modelled from the spec (§3, §4.3): the ordered candidate set
std::set<SurfaceFace, FaceComp> (member `surface`, rayconcavehull.h:124)
as a FaceComp-sorted duplicate-free list; insertion keeps the order
and, as for std::set, is a no-op when an equivalent key (neither
strictly before nor after) is already present. -/
def insertFace (f : SurfaceFace) : List SurfaceFace → List SurfaceFace
  | [] => [f]
  | x :: xs =>
    if faceComp f x then f :: x :: xs
    else if faceComp x f then x :: insertFace f xs
    else x :: xs

/-- Insert a batch of new candidates into the ordered set. -/
def insertFaces (l : List SurfaceFace) (acc : List SurfaceFace) : List SurfaceFace :=
  l.foldl (fun a f => insertFace f a) acc

/-- The evolving state of one growth pass (§4.3): the mesh plus the
ordered candidate set. -/
structure GrowState where
  hull : ConcaveHull
  candidates : List SurfaceFace
deriving DecidableEq

/-- Mark tetrahedron n of the arena as seen/consumed. -/
def setSeen : ℕ → List Tetrahedron → List Tetrahedron
  | _, [] => []
  | 0, t :: ts => { t with seen := true } :: ts
  | n + 1, t :: ts => t :: setSeen n ts

/-- Mark triangle n as accepted into the surface and consumed
(§4.3: is_surface := true and used := true). -/
def setTriSurface : ℕ → List Triangle → List Triangle
  | _, [] => []
  | 0, t :: ts => { t with is_surface := true, used := true } :: ts
  | n + 1, t :: ts => t :: setTriSurface n ts

/-- The far-side tetrahedron index of a triangle relative to the
tetrahedron with id tetId (§3: a triangle knows its one or two owning
tetrahedra). -/
def farTetraIdx (tri : Triangle) (tetId : ℤ) : ℤ :=
  if tri.tetrahedra 0 = tetId then tri.tetrahedra 1 else tri.tetrahedra 0

/-- The number of consumed tetrahedra. -/
def seenCount (l : List Tetrahedron) : ℕ := l.countP (·.seen)

/-- Modelled from the spec (§4.3): after consuming tetrahedron `tet`
through triangle `consumedTri`, each other bounding triangle of `tet`
that is not already used and whose far side is an unconsumed,
non-sentinel tetrahedron becomes a new candidate carrying the curvature
computed by the estimator; faces toward sentinel outer tetrahedra or
absent neighbours are skipped. -/
def exposedFaces (h : ConcaveHull) (tet : Tetrahedron) (consumedTri : ℤ) :
    List SurfaceFace :=
  (List.finRange 4).filterMap fun i =>
    let triIdx := tet.triangles i
    if triIdx = consumedTri then none
    else
      let tri := getTriangle h triIdx
      if tri.used then none
      else
        match getTetra h (farTetraIdx tri tet.id) with
        | none => none
        | some ft =>
          if ft.seen then none
          else if ∃ j : Fin 4, ft.vertices j = -1 then none
          else some ⟨farTetraIdx tri tet.id, triIdx, circumcurvature h ft triIdx⟩

/-- Modelled from the spec: `ConcaveHull::growFront` — only its
declaration (rayconcavehull.h:128) is in src/.  §4.3: pop the
lowest-curvature candidate; if its curvature exceeds maxCurvature the
candidate is not consumed and the call returns false; otherwise the
candidate's tetrahedron is marked consumed, its triangle is marked
is_surface and used, and the exposed faces of the newly consumed
tetrahedron are inserted as new candidates.  Candidates that no longer
separate a consumed from an unconsumed tetrahedron (tetrahedron already
consumed through another face, triangle already used, or the link out
of range) are discarded, per the §3 frontier invariant that the
candidate set is exactly the set of separating triangles. -/
def growFrontAux (maxCurv : ℚ) (h : ConcaveHull) : List SurfaceFace → Bool × GrowState
  | [] => (false, ⟨h, []⟩)
  | f :: rest =>
    match getTetra h f.tetrahedron with
    | none => growFrontAux maxCurv h rest
    | some tet =>
      if tet.seen ∨ (getTriangle h f.triangle).used then growFrontAux maxCurv h rest
      else if maxCurv < f.curvature then (false, ⟨h, f :: rest⟩)
      else
        let h1 : ConcaveHull :=
          { h with
            tetrahedra := setSeen f.tetrahedron.toNat h.tetrahedra
            triangles := setTriSurface f.triangle.toNat h.triangles }
        (true, ⟨h1, insertFaces (exposedFaces h1 tet f.triangle) rest⟩)

/-- One growth step on a GrowState. -/
def growFront (maxCurv : ℚ) (s : GrowState) : Bool × GrowState :=
  growFrontAux maxCurv s.hull s.candidates

/-- Modelled from the spec: `ConcaveHull::growSurface`
(declaration rayconcavehull.h:127): drives growFront in a loop until it
returns false (§4.3).  The loop carries explicit fuel; C4's theorem
shows the fuel below always reaches convergence. -/
def growSurfaceFuel (maxCurv : ℚ) : ℕ → GrowState → GrowState
  | 0, s => s
  | n + 1, s =>
    let r := growFront maxCurv s
    if r.1 then growSurfaceFuel maxCurv n r.2 else r.2

/-- The growth loop with fuel one more than the number of tetrahedra —
enough, since every successful step consumes a fresh tetrahedron. -/
def growSurface (maxCurv : ℚ) (s : GrowState) : GrowState :=
  growSurfaceFuel maxCurv (s.hull.tetrahedra.length + 1) s

/-- Modelled from the spec (§4.4): each entry point resets all
used/is_surface/seen flags before a fresh growth pass. -/
def resetFlags (h : ConcaveHull) : ConcaveHull :=
  { h with
    triangles := h.triangles.map fun t => { t with is_surface := false, used := false }
    tetrahedra := h.tetrahedra.map fun t => { t with seen := false } }

/-- The output surface (§6): the triangles accepted into the surface,
i.e. those with is_surface = true. -/
def surfaceTris (h : ConcaveHull) : List Triangle :=
  h.triangles.filter (·.is_surface)

/-- Mark every sentinel outer tetrahedron (any invalid vertex index, §3)
as consumed, so inward growth starts from the convex exterior. -/
def markSentinelsSeen (h : ConcaveHull) : ConcaveHull :=
  { h with
    tetrahedra := h.tetrahedra.map fun t =>
      if ∃ j : Fin 4, t.vertices j = -1 then { t with seen := true } else t }

/-- The seed candidates of inward growth: the exposed faces of every
sentinel outer tetrahedron. -/
def sentinelSeeds (h1 : ConcaveHull) : List SurfaceFace :=
  (h1.tetrahedra.filter fun t =>
    decide (∃ j : Fin 4, t.vertices j = -1)).flatMap fun t => exposedFaces h1 t (-1)

/-- Modelled from the spec: `ConcaveHull::growInwards`
(declaration rayconcavehull.h:22): reset flags, mark every sentinel
outer tetrahedron consumed, enqueue the faces separating them from
unconsumed interior tetrahedra, then grow (§4.4). -/
def growInwards (maxCurv : ℚ) (h : ConcaveHull) : ConcaveHull :=
  (growSurface maxCurv
    ⟨markSentinelsSeen (resetFlags h),
      insertFaces (sentinelSeeds (markSentinelsSeen (resetFlags h))) []⟩).hull

/-- One step of the seed search: skip sentinels and keep the
best-scoring tetrahedron seen so far. -/
def seedStep (score : Tetrahedron → ℚ) (best : Option Tetrahedron) (t : Tetrahedron) :
    Option Tetrahedron :=
  if ∃ j : Fin 4, t.vertices j = -1 then best
  else
    match best with
    | none => some t
    | some b => if score t < score b then some t else best

/-- Modelled from the spec (§4.4): pick a non-sentinel seed tetrahedron
minimising the given score, if any non-sentinel tetrahedron exists. -/
def pickSeed (h : ConcaveHull) (score : Tetrahedron → ℚ) : Option Tetrahedron :=
  h.tetrahedra.foldl (seedStep score) none

/-- Mark the chosen seed tetrahedron consumed, enqueue its exposed
faces, and run the growth loop; without a seed the mesh is returned
unchanged (no surface is extractable). -/
def seedAndGrow (maxCurv : ℚ) (h1 : ConcaveHull) : Option Tetrahedron → ConcaveHull
  | none => h1
  | some t =>
    let h2 : ConcaveHull := { h1 with tetrahedra := setSeen t.id.toNat h1.tetrahedra }
    (growSurface maxCurv ⟨h2, insertFaces (exposedFaces h2 t (-1)) []⟩).hull

/-- Modelled from the spec: `ConcaveHull::growOutwards(double)`
(declaration rayconcavehull.h:23): seeds from a deeply interior
tetrahedron — the model picks the non-sentinel tetrahedron whose
centroid is nearest the cloud centre — and grows toward the boundary
(§4.4). -/
def growOutwards (maxCurv : ℚ) (h : ConcaveHull) : ConcaveHull :=
  let h1 := resetFlags h
  seedAndGrow maxCurv h1
    (pickSeed h1 fun t => Vec3.normSq (tetCentroid h1 t - h1.centre))

/-- Modelled from the spec: `ConcaveHull::growInDirection`
(declaration rayconcavehull.h:24): seeds from the tetrahedron whose
centroid is the extremum along `dir` and grows from there (§4.4). -/
def growInDirection (maxCurv : ℚ) (dir : Vec3) (h : ConcaveHull) : ConcaveHull :=
  let h1 := resetFlags h
  seedAndGrow maxCurv h1 (pickSeed h1 fun t => -(Vec3.dot (tetCentroid h1 t) dir))

/-- ConcaveHull::growUpwards (rayconcavehull.h:25). -/
def growUpwards (maxCurv : ℚ) (h : ConcaveHull) : ConcaveHull :=
  growInDirection maxCurv ⟨0, 0, 1⟩ h

/-- ConcaveHull::growTopDown (rayconcavehull.h:26). -/
def growTopDown (maxCurv : ℚ) (h : ConcaveHull) : ConcaveHull :=
  growInDirection maxCurv ⟨0, 0, -1⟩ h

/-- A tetrahedron with a valid vertex 0 but an invalid vertex 1: the
counterexample separating Tetrahedron::valid from the sentinel test of
insideTetrahedron. -/
def mixedTetra : Tetrahedron := { Tetrahedron.init with vertices := ![0, -1, 0, 0] }

/-- A degenerate input: three points and a tetrahedralization consisting
of a single sentinel outer tetrahedron (zero non-sentinel cells). -/
def degenHull : ConcaveHull :=
  { vertex_on_surface := [false, false, false]
    vertices := [⟨0, 0, 0⟩, ⟨1, 0, 0⟩, ⟨0, 1, 0⟩]
    edges := []
    triangles := []
    tetrahedra := [Tetrahedron.init]
    centre := ⟨0, 0, 0⟩ }

/-- A single regular tetrahedralization cell over the four unit points,
used as the concrete witness mesh. -/
def exampleTet : Tetrahedron :=
  { vertices := ![0, 1, 2, 3]
    triangles := ![0, 1, 2, 3]
    neighbours := ![-1, -1, -1, -1]
    id := 0
    seen := false }

/-- Concrete witness mesh: the unit tetrahedron (0,0,0),(1,0,0),(0,1,0),(0,0,1)
with its four bounding triangles. -/
def exampleHull : ConcaveHull :=
  { vertex_on_surface := [false, false, false, false]
    vertices := [⟨0, 0, 0⟩, ⟨1, 0, 0⟩, ⟨0, 1, 0⟩, ⟨0, 0, 1⟩]
    edges := []
    triangles :=
      [ { Triangle.init with vertices := ![0, 1, 2], tetrahedra := ![0, -1] }
      , { Triangle.init with vertices := ![0, 1, 3], tetrahedra := ![0, -1] }
      , { Triangle.init with vertices := ![0, 2, 3], tetrahedra := ![0, -1] }
      , { Triangle.init with vertices := ![1, 2, 3], tetrahedra := ![0, -1] } ]
    tetrahedra := [exampleTet]
    centre := ⟨0, 0, 0⟩ }

/-- An interior point of the example tetrahedron. -/
def examplePoint : Vec3 := ⟨1/4, 1/4, 1/4⟩

/-- A point on the plane x + y + z = 1 of the example tetrahedron's fourth
bounding triangle. -/
def exampleFacePoint : Vec3 := ⟨1/3, 1/3, 1/3⟩

/-- Unfolding lemma: on a non-sentinel tetrahedron, insideTetrahedron is
the conjunction of the four non-negativity tests of rayconcavehull.h:97. -/
lemma insideTetrahedron_eq_true_iff (h : ConcaveHull) (pos : Vec3) (tetra : Tetrahedron)
    (hv : ∀ j : Fin 4, tetra.vertices j ≠ -1) :
    insideTetrahedron h pos tetra = true ↔
      ∀ i : Fin 4, 0 ≤ signedDist h pos (tetra.triangles i) *
        signedDist h (tetCentroid h tetra) (tetra.triangles i) := by
  unfold insideTetrahedron
  rw [if_neg (by push_neg; exact ⟨hv 0, hv 1, hv 2, hv 3⟩)]
  simp only [faceOk, Bool.and_eq_true, Bool.not_eq_true', decide_eq_false_iff_not, not_lt]
  constructor
  · rintro ⟨⟨⟨h0, h1⟩, h2⟩, h3⟩ i
    fin_cases i
    · exact h0
    · exact h1
    · exact h2
    · exact h3
  · intro hall
    exact ⟨⟨⟨hall 0, hall 1⟩, hall 2⟩, hall 3⟩

/-- Unfolding lemma: a sentinel tetrahedron is rejected outright
(rayconcavehull.h:88-90). -/
lemma insideTetrahedron_sentinel (h : ConcaveHull) (pos : Vec3) (tetra : Tetrahedron)
    (j : Fin 4) (hj : tetra.vertices j = -1) :
    insideTetrahedron h pos tetra = false := by
  unfold insideTetrahedron
  rw [if_pos]
  fin_cases j <;> simp_all

/-- C1: insideTetrahedron returns false whenever any of the tetrahedron's
four vertex indices is -1; otherwise it returns true iff, for each of the
four bounding triangles, the signed distance of the query point from the
triangle's plane and the signed distance of the tetrahedron's centroid
from that plane do not strictly disagree in sign (their product is
non-negative, the boundary-inclusive sign agreement of
rayconcavehull.h:97). -/
theorem c1_insideTetrahedron_sign_agreement (h : ConcaveHull) (pos : Vec3)
    (tetra : Tetrahedron) :
    ((∃ j : Fin 4, tetra.vertices j = -1) → insideTetrahedron h pos tetra = false) ∧
    ((∀ j : Fin 4, tetra.vertices j ≠ -1) →
      (insideTetrahedron h pos tetra = true ↔
        ∀ i : Fin 4, 0 ≤ signedDist h pos (tetra.triangles i) *
          signedDist h (tetCentroid h tetra) (tetra.triangles i))) := by
  constructor
  · rintro ⟨j, hj⟩
    exact insideTetrahedron_sentinel h pos tetra j hj
  · intro hv
    exact insideTetrahedron_eq_true_iff h pos tetra hv

/-- Witness for C1: the point (1/4,1/4,1/4) is reported inside the unit
example tetrahedron. -/
theorem c1_witness : insideTetrahedron exampleHull examplePoint exampleTet = true :=
  ((c1_insideTetrahedron_sign_agreement exampleHull examplePoint exampleTet).2
    (by decide)).mpr (by with_unfolding_all decide)

/-- C10: boundary points are classified inclusively: if the query point
lies exactly on the plane of bounding triangle k (signed distance zero)
and the sign-agreement test passes for the remaining faces, the point is
reported inside, because line 97 rejects only on a strictly negative
product. -/
theorem c10_boundary_inclusive (h : ConcaveHull) (pos : Vec3) (tetra : Tetrahedron)
    (hv : ∀ j : Fin 4, tetra.vertices j ≠ -1) (k : Fin 4)
    (hk : signedDist h pos (tetra.triangles k) = 0)
    (hrest : ∀ i : Fin 4, i ≠ k →
      0 ≤ signedDist h pos (tetra.triangles i) *
        signedDist h (tetCentroid h tetra) (tetra.triangles i)) :
    insideTetrahedron h pos tetra = true := by
  rw [insideTetrahedron_eq_true_iff h pos tetra hv]
  intro i
  by_cases hik : i = k
  · rw [hik, hk, zero_mul]
  · exact hrest i hik

/-- Witness for C10: the point (1/3,1/3,1/3) lies exactly on the plane
x+y+z = 1 of the example tetrahedron's fourth bounding triangle and is
reported inside. -/
theorem c10_witness :
    insideTetrahedron exampleHull exampleFacePoint exampleTet = true :=
  c10_boundary_inclusive exampleHull exampleFacePoint exampleTet (by decide) 3
    (by with_unfolding_all decide) (by with_unfolding_all decide)

/-- C9: insideTetrahedron performs no vertex or triangle array access at
all on a tetrahedron with an invalid vertex index — the sentinel guard
of line 88 precedes every lookup — so every access it does perform comes
from a tetrahedron whose four vertex indices are all valid. -/
theorem c9_accesses_guarded (h : ConcaveHull) (pos : Vec3) (tetra : Tetrahedron) :
    ((∃ j : Fin 4, tetra.vertices j = -1) →
      insideTetrahedronAccesses h pos tetra = []) ∧
    (∀ a ∈ insideTetrahedronAccesses h pos tetra, ∀ j : Fin 4, tetra.vertices j ≠ -1) := by
  constructor
  · rintro ⟨j, hj⟩
    unfold insideTetrahedronAccesses
    rw [if_pos]
    fin_cases j <;> simp_all
  · intro a ha j
    unfold insideTetrahedronAccesses at ha
    by_cases hs : tetra.vertices 0 = -1 ∨ tetra.vertices 1 = -1 ∨ tetra.vertices 2 = -1 ∨
        tetra.vertices 3 = -1
    · rw [if_pos hs] at ha
      exact absurd ha (List.not_mem_nil a)
    · push_neg at hs
      intro hj
      obtain ⟨h0, h1, h2, h3⟩ := hs
      fin_cases j <;> simp_all

/-- Witness for C9: on the example tetrahedron (all vertex indices
valid) the access list is non-empty, and the theorem recovers validity
of all four indices from the first access. -/
theorem c9_witness : ∀ j : Fin 4, exampleTet.vertices j ≠ -1 :=
  (c9_accesses_guarded exampleHull examplePoint exampleTet).2
    (MeshAccess.vertexAt 0) (by with_unfolding_all decide)

/-- faceComp agrees with the lexicographic order on
(curvature, triangle, tetrahedron). -/
lemma faceComp_iff_lex (a b : SurfaceFace) : faceComp a b = true ↔ faceLexLess a b := by
  unfold faceComp faceLexLess
  split_ifs with h1 h2
  · simp [h1, h2]
  · simp [h1, h2]
  · simp [h1]

/-- faceLexLess is asymmetric. -/
lemma faceLexLess_asymm (a b : SurfaceFace) : faceLexLess a b → ¬faceLexLess b a := by
  unfold faceLexLess
  rintro (h | ⟨he, h | ⟨he2, h⟩⟩) (h' | ⟨he', h' | ⟨he2', h'⟩⟩) <;> linarith

/-- faceLexLess is transitive. -/
lemma faceLexLess_trans (a b c : SurfaceFace) :
    faceLexLess a b → faceLexLess b c → faceLexLess a c := by
  unfold faceLexLess
  rintro (h | ⟨he, hi⟩) (h' | ⟨he', hi'⟩)
  · exact Or.inl (lt_trans h h')
  · exact Or.inl (lt_of_lt_of_le h he'.le)
  · exact Or.inl (lt_of_le_of_lt he.le h')
  · refine Or.inr ⟨he.trans he', ?_⟩
    rcases hi with h | ⟨he2, h⟩ <;> rcases hi' with h' | ⟨he2', h'⟩
    · exact Or.inl (lt_trans h h')
    · exact Or.inl (lt_of_lt_of_le h he2'.le)
    · exact Or.inl (lt_of_le_of_lt he2.le h')
    · exact Or.inr ⟨he2.trans he2', lt_trans h h'⟩

/-- faceLexLess is total on records that differ in at least one field. -/
lemma faceLexLess_total (a b : SurfaceFace)
    (hne : a.curvature ≠ b.curvature ∨ a.triangle ≠ b.triangle ∨
      a.tetrahedron ≠ b.tetrahedron) :
    faceLexLess a b ∨ faceLexLess b a := by
  unfold faceLexLess
  rcases lt_trichotomy a.curvature b.curvature with h | h | h
  · exact Or.inl (Or.inl h)
  · rcases lt_trichotomy a.triangle b.triangle with h2 | h2 | h2
    · exact Or.inl (Or.inr ⟨h, Or.inl h2⟩)
    · rcases lt_trichotomy a.tetrahedron b.tetrahedron with h3 | h3 | h3
      · exact Or.inl (Or.inr ⟨h, Or.inr ⟨h2, h3⟩⟩)
      · simp_all
      · exact Or.inr (Or.inr ⟨h.symm, Or.inr ⟨h2.symm, h3⟩⟩)
    · exact Or.inr (Or.inr ⟨h.symm, Or.inl h2⟩)
  · exact Or.inr (Or.inl h)

/-- Records that coincide on all three fields are equal. -/
lemma SurfaceFace.ext_fields (a b : SurfaceFace) (h1 : a.curvature = b.curvature)
    (h2 : a.triangle = b.triangle) (h3 : a.tetrahedron = b.tetrahedron) : a = b := by
  cases a; cases b; simp_all

/-- C2: the candidate-set comparator FaceComp orders a strictly before b
iff the triple (curvature, triangle, tetrahedron) of a is
lexicographically less than that of b, and it is irreflexive,
asymmetric, transitive, and total on records differing in at least one
field — a strict total order, making the ordered candidate set
deterministic. -/
theorem c2_faceComp_strict_total_order (a b c : SurfaceFace) :
    (faceComp a b = true ↔ faceLexLess a b) ∧
    faceComp a a = false ∧
    (faceComp a b = true → faceComp b a = false) ∧
    (faceComp a b = true → faceComp b c = true → faceComp a c = true) ∧
    ((a.curvature ≠ b.curvature ∨ a.triangle ≠ b.triangle ∨
        a.tetrahedron ≠ b.tetrahedron) →
      faceComp a b = true ∨ faceComp b a = true) := by
  refine ⟨faceComp_iff_lex a b, ?_, ?_, ?_, ?_⟩
  · simp [faceComp]
  · intro hab
    rw [Bool.eq_false_iff]
    intro hba
    exact faceLexLess_asymm a b ((faceComp_iff_lex a b).mp hab)
      ((faceComp_iff_lex b a).mp hba)
  · intro hab hbc
    exact (faceComp_iff_lex a c).mpr
      (faceLexLess_trans a b c ((faceComp_iff_lex a b).mp hab)
        ((faceComp_iff_lex b c).mp hbc))
  · intro hne
    rcases faceLexLess_total a b hne with h | h
    · exact Or.inl ((faceComp_iff_lex a b).mpr h)
    · exact Or.inr ((faceComp_iff_lex b a).mpr h)

/-- Witness for C2: two concrete candidates with equal curvature are
ordered by triangle index. -/
theorem c2_witness :
    faceComp ⟨5, 2, 1⟩ ⟨4, 3, 1⟩ = true ∧ faceComp ⟨4, 3, 1⟩ ⟨5, 2, 1⟩ = false :=
  ⟨(c2_faceComp_strict_total_order ⟨5, 2, 1⟩ ⟨4, 3, 1⟩ ⟨4, 3, 1⟩).1.mpr
      (Or.inr ⟨rfl, Or.inl (by norm_num)⟩),
    (c2_faceComp_strict_total_order ⟨5, 2, 1⟩ ⟨4, 3, 1⟩ ⟨4, 3, 1⟩).2.2.1
      ((c2_faceComp_strict_total_order ⟨5, 2, 1⟩ ⟨4, 3, 1⟩ ⟨4, 3, 1⟩).1.mpr
        (Or.inr ⟨rfl, Or.inl (by norm_num)⟩))⟩

/-- Counterexample for C8: Tetrahedron::valid (rayconcavehull.h:78)
checks only vertex index 0, so on a tetrahedron with vertices
(0,-1,0,0) it returns true even though a vertex index is invalid — the
claimed equivalence with the any-of-four sentinel test fails. -/
theorem c8_counterexample :
    ¬(Tetrahedron.valid mixedTetra = false ↔ ∃ j : Fin 4, mixedTetra.vertices j = -1) := by
  decide

/-- C8 (amended): valid() returns false iff vertex index 0 is -1; every
tetrahedron it classifies invalid is rejected by insideTetrahedron's
sentinel test, but the two classifications differ on tetrahedra whose
vertex 0 is valid while a later vertex index is -1. -/
theorem c8_valid_vertex0_only (h : ConcaveHull) (pos : Vec3) (t : Tetrahedron) :
    (Tetrahedron.valid t = false ↔ t.vertices 0 = -1) ∧
    (Tetrahedron.valid t = false → insideTetrahedron h pos t = false) := by
  have hiff : Tetrahedron.valid t = false ↔ t.vertices 0 = -1 := by
    unfold Tetrahedron.valid
    simp [bne]
  refine ⟨hiff, fun hf => ?_⟩
  exact insideTetrahedron_sentinel h pos t 0 (hiff.mp hf)

/-- Witness for C8 (amended): the default-constructed sentinel
tetrahedron is invalid and insideTetrahedron rejects it. -/
theorem c8_witness : insideTetrahedron exampleHull examplePoint Tetrahedron.init = false :=
  (c8_valid_vertex0_only exampleHull examplePoint Tetrahedron.init).2 (by decide)

/-- growFront returns false and leaves the mesh untouched when every
candidate's curvature exceeds the threshold. -/
lemma growFrontAux_all_high (maxCurv : ℚ) (h : ConcaveHull) (l : List SurfaceFace)
    (hl : ∀ f ∈ l, maxCurv < f.curvature) :
    (growFrontAux maxCurv h l).1 = false ∧ (growFrontAux maxCurv h l).2.hull = h := by
  induction l with
  | nil => exact ⟨rfl, rfl⟩
  | cons f rest ih =>
    have hrest : ∀ g ∈ rest, maxCurv < g.curvature := fun g hg =>
      hl g (List.mem_cons_of_mem f hg)
    unfold growFrontAux
    rcases hg : getTetra h f.tetrahedron with _ | tet
    · simpa [hg] using ih hrest
    · simp only [hg]
      split_ifs with hstale hhigh
      · exact ih hrest
      · exact ⟨rfl, rfl⟩
      · exact absurd (hl f (List.mem_cons_self f rest)) hhigh

/-- C5: when the candidate set is empty, or every remaining candidate's
curvature exceeds maxCurvature, growFront returns false and leaves the
mesh (all triangle and tetrahedron flags) unchanged — repeated calls
after convergence are no-ops. -/
theorem c5_growFront_exhausted_noop (maxCurv : ℚ) (s : GrowState)
    (hconv : s.candidates = [] ∨ ∀ f ∈ s.candidates, maxCurv < f.curvature) :
    (growFront maxCurv s).1 = false ∧ (growFront maxCurv s).2.hull = s.hull := by
  rcases hconv with hempty | hhigh
  · unfold growFront
    rw [hempty]
    exact ⟨rfl, rfl⟩
  · exact growFrontAux_all_high maxCurv s.hull s.candidates hhigh

/-- Witness for C5: growFront on the example mesh with an exhausted
candidate set is a no-op returning false. -/
theorem c5_witness :
    (growFront 1 ⟨exampleHull, []⟩).1 = false ∧
      (growFront 1 ⟨exampleHull, []⟩).2.hull = exampleHull :=
  c5_growFront_exhausted_noop 1 ⟨exampleHull, []⟩ (Or.inl rfl)

/-- setSeen preserves the arena length. -/
lemma setSeen_length (n : ℕ) (l : List Tetrahedron) : (setSeen n l).length = l.length := by
  induction n generalizing l with
  | zero => cases l <;> simp [setSeen]
  | succ n ih => cases l <;> simp [setSeen, ih]

/-- Marking an unseen tetrahedron increments the consumed count by one. -/
lemma seenCount_setSeen : ∀ (n : ℕ) (l : List Tetrahedron) (t : Tetrahedron),
    l.get? n = some t → t.seen = false → seenCount (setSeen n l) = seenCount l + 1 := by
  intro n
  induction n with
  | zero =>
    intro l t hget ht
    cases l with
    | nil => simp at hget
    | cons a as =>
      simp only [List.get?] at hget
      injection hget with hat
      subst hat
      simp [setSeen, seenCount, List.countP_cons, ht]
  | succ n ih =>
    intro l t hget ht
    cases l with
    | nil => simp at hget
    | cons a as =>
      simp only [List.get?] at hget
      have hrec := ih as t hget ht
      simp only [setSeen, seenCount, List.countP_cons] at hrec ⊢
      omega

/-- The consumed count never exceeds the arena length. -/
lemma seenCount_le (l : List Tetrahedron) : seenCount l ≤ l.length :=
  List.countP_le_length _

/-- getTetra succeeds only on in-range indices. -/
lemma getTetra_some (h : ConcaveHull) (i : ℤ) (t : Tetrahedron)
    (hg : getTetra h i = some t) : h.tetrahedra.get? i.toNat = some t := by
  unfold getTetra at hg
  split_ifs at hg
  exact hg

/-- A growFront call that returns true marks as consumed exactly one
previously-unconsumed tetrahedron, preserving the arena length. -/
lemma growFrontAux_true_consume (maxCurv : ℚ) (h : ConcaveHull) (l : List SurfaceFace)
    (ht : (growFrontAux maxCurv h l).1 = true) :
    seenCount (growFrontAux maxCurv h l).2.hull.tetrahedra = seenCount h.tetrahedra + 1 ∧
    (growFrontAux maxCurv h l).2.hull.tetrahedra.length = h.tetrahedra.length := by
  induction l with
  | nil => simp [growFrontAux] at ht
  | cons f rest ih =>
    unfold growFrontAux at ht ⊢
    rcases hg : getTetra h f.tetrahedron with _ | tet
    · simp only [hg] at ht ⊢
      exact ih ht
    · simp only [hg] at ht ⊢
      split_ifs at ht ⊢ with h1 h2
      · exact ih ht
      · have hseen : tet.seen = false := by
          rcases Bool.eq_false_or_eq_true tet.seen with hs | hs
          · exact absurd (Or.inl (by simp [hs])) h1
          · exact hs
        have hget : h.tetrahedra.get? f.tetrahedron.toNat = some tet :=
          getTetra_some h f.tetrahedron tet hg
        exact ⟨seenCount_setSeen _ _ tet hget hseen, setSeen_length _ _⟩

/-- A head candidate that is live but above the threshold halts growth
with the state unchanged. -/
lemma growFrontAux_high_head (maxCurv : ℚ) (h : ConcaveHull) (f : SurfaceFace)
    (rest : List SurfaceFace) (tet : Tetrahedron)
    (hg : getTetra h f.tetrahedron = some tet)
    (h1 : ¬(tet.seen = true ∨ (getTriangle h f.triangle).used = true))
    (h2 : maxCurv < f.curvature) :
    growFrontAux maxCurv h (f :: rest) = (false, ⟨h, f :: rest⟩) := by
  unfold growFrontAux
  rw [hg]
  simp only []
  rw [if_neg h1, if_pos h2]

/-- After a growFront call returning false, the state is a fixed point:
calling growFront again returns false and the same state. -/
lemma growFrontAux_false_fix (maxCurv : ℚ) (h : ConcaveHull) (l : List SurfaceFace)
    (hf : (growFrontAux maxCurv h l).1 = false) :
    growFront maxCurv (growFrontAux maxCurv h l).2 = (false, (growFrontAux maxCurv h l).2) := by
  induction l with
  | nil => simp [growFrontAux, growFront]
  | cons f rest ih =>
    unfold growFrontAux at hf ⊢
    rcases hg : getTetra h f.tetrahedron with _ | tet
    · simp only [hg] at hf ⊢
      exact ih hf
    · simp only [hg] at hf ⊢
      split_ifs at hf ⊢ with h1 h2
      · exact ih hf
      · show growFront maxCurv ⟨h, f :: rest⟩ = (false, ⟨h, f :: rest⟩)
        exact growFrontAux_high_head maxCurv h f rest tet hg h1 h2

/-- With fuel exceeding the number of unconsumed tetrahedra, the growth
loop reaches a converged state: growFront on the result is a no-op
returning false. -/
lemma growSurfaceFuel_conv (maxCurv : ℚ) (fuel : ℕ) (s : GrowState)
    (hfuel : s.hull.tetrahedra.length - seenCount s.hull.tetrahedra < fuel) :
    growFront maxCurv (growSurfaceFuel maxCurv fuel s) =
      (false, growSurfaceFuel maxCurv fuel s) := by
  induction fuel generalizing s with
  | zero => exact absurd hfuel (Nat.not_lt_zero _)
  | succ n ih =>
    unfold growSurfaceFuel
    cases hr : (growFront maxCurv s).1 with
    | false =>
      simp only [hr, Bool.false_eq_true, if_false]
      exact growFrontAux_false_fix maxCurv s.hull s.candidates hr
    | true =>
      simp only [hr, if_true]
      apply ih
      obtain ⟨hc, hl⟩ := growFrontAux_true_consume maxCurv s.hull s.candidates hr
      have hc' : seenCount (growFront maxCurv s).2.hull.tetrahedra =
          seenCount s.hull.tetrahedra + 1 := hc
      have hl' : (growFront maxCurv s).2.hull.tetrahedra.length =
          s.hull.tetrahedra.length := hl
      have hle := seenCount_le (growFront maxCurv s).2.hull.tetrahedra
      omega

/-- C4: every growFront call that returns true marks as consumed exactly
one previously-unconsumed tetrahedron, so the number of successful
steps in one pass is bounded by the (finite) number of tetrahedra and
the growSurface loop, run with fuel tetrahedra.length + 1, reaches a
converged state on which growFront is a no-op returning false — growth
cannot loop forever. -/
theorem c4_growth_consumes_and_terminates (maxCurv : ℚ) (s : GrowState) :
    ((growFront maxCurv s).1 = true →
      seenCount (growFront maxCurv s).2.hull.tetrahedra =
        seenCount s.hull.tetrahedra + 1) ∧
    growFront maxCurv (growSurface maxCurv s) = (false, growSurface maxCurv s) := by
  constructor
  · intro ht
    exact (growFrontAux_true_consume maxCurv s.hull s.candidates ht).1
  · unfold growSurface
    apply growSurfaceFuel_conv
    have := seenCount_le s.hull.tetrahedra
    omega

/-- Witness for C4: consuming the example tetrahedron through its
fourth bounding triangle increments the consumed count from 0 to 1. -/
theorem c4_witness :
    (growFront 2 ⟨exampleHull, [⟨0, 3, 1⟩]⟩).1 = true ∧
      seenCount (growFront 2 ⟨exampleHull, [⟨0, 3, 1⟩]⟩).2.hull.tetrahedra =
        seenCount exampleHull.tetrahedra + 1 :=
  ⟨by with_unfolding_all decide,
    (c4_growth_consumes_and_terminates 2 ⟨exampleHull, [⟨0, 3, 1⟩]⟩).1
      (by with_unfolding_all decide)⟩

/-- Squared norms are non-negative. -/
lemma Vec3.normSq_nonneg (v : Vec3) : 0 ≤ v.normSq := by
  unfold Vec3.normSq Vec3.dot
  nlinarith [mul_self_nonneg v.x, mul_self_nonneg v.y, mul_self_nonneg v.z]

/-- C7: the curvature estimator always returns a well-defined
non-negative rational (the model has no NaN by construction), and on
numerically degenerate geometry — a zero-area triangle, i.e. zero face
normal — it returns the sentinel curvature instead of an undefined
value. -/
theorem c7_circumcurvature_nonneg_sentinel (h : ConcaveHull) (tetra : Tetrahedron)
    (triangleID : ℤ) :
    0 ≤ circumcurvature h tetra triangleID ∧
    (Vec3.normSq (faceNormal h triangleID) = 0 →
      circumcurvature h tetra triangleID = sentinelCurvature) := by
  constructor
  · unfold circumcurvature
    dsimp only
    split_ifs with hdeg
    · unfold sentinelCurvature
      norm_num
    · exact div_nonneg (Vec3.normSq_nonneg _)
        (mul_nonneg (mul_nonneg (Vec3.normSq_nonneg _) (Vec3.normSq_nonneg _))
          (Vec3.normSq_nonneg _))
  · intro hz
    unfold circumcurvature
    dsimp only
    split_ifs with hdeg
    · rfl
    · exact absurd (Or.inl hz) hdeg

/-- Witness for C7: the degenerate (all-coincident) triangle obtained
through an absent triangle link maps to the sentinel curvature. -/
theorem c7_witness : circumcurvature exampleHull exampleTet (-1) = sentinelCurvature :=
  (c7_circumcurvature_nonneg_sentinel exampleHull exampleTet (-1)).2
    (by with_unfolding_all decide)

/-- When every tetrahedron is already consumed, no face is exposed. -/
lemma exposedFaces_all_seen (h : ConcaveHull) (tet : Tetrahedron) (c : ℤ)
    (hall : ∀ t' ∈ h.tetrahedra, t'.seen = true) :
    exposedFaces h tet c = [] := by
  unfold exposedFaces
  rw [List.filterMap_eq_nil_iff]
  intro i _
  dsimp only
  split_ifs with h1 h2
  · rfl
  · rfl
  · rcases hg : getTetra h (farTetraIdx (getTriangle h (tet.triangles i)) tet.id) with _ | ft
    · rfl
    · have hmem : ft ∈ h.tetrahedra := List.get?_mem (getTetra_some h _ ft hg)
      simp [hall ft hmem]

/-- The growth loop on an empty candidate set leaves the state alone. -/
lemma growSurfaceFuel_empty (maxCurv : ℚ) (fuel : ℕ) (h : ConcaveHull) :
    growSurfaceFuel maxCurv fuel ⟨h, []⟩ = ⟨h, []⟩ := by
  cases fuel with
  | zero => rfl
  | succ n => simp [growSurfaceFuel, growFront, growFrontAux]

/-- A mesh with no surface-flagged triangle has an empty output surface. -/
lemma surfaceTris_all_false (h : ConcaveHull)
    (hall : ∀ t ∈ h.triangles, t.is_surface = false) : surfaceTris h = [] := by
  unfold surfaceTris
  rw [List.filter_eq_nil_iff]
  intro t ht
  simp [hall t ht]

/-- The seed search returns nothing over a run of sentinels. -/
lemma foldl_seedStep_sentinel (score : Tetrahedron → ℚ) :
    ∀ (l : List Tetrahedron), (∀ t ∈ l, ∃ j : Fin 4, t.vertices j = -1) →
      ∀ init, l.foldl (seedStep score) init = init := by
  intro l
  induction l with
  | nil => intro _ init; rfl
  | cons a as ih =>
    intro hall init
    have ha : seedStep score init a = init := by
      unfold seedStep
      rw [if_pos (hall a (List.mem_cons_self a as))]
    simp only [List.foldl_cons, ha]
    exact ih (fun t ht => hall t (List.mem_cons_of_mem a ht)) init

/-- C6: on a degenerate input — a tetrahedralization whose tetrahedra
are all sentinels (in particular any input of fewer than 4 points,
which by spec section 4.1 yields zero non-sentinel tetrahedra) — every
extraction entry point completes and returns an empty surface mesh. -/
theorem c6_degenerate_empty_surface (maxCurv : ℚ) (dir : Vec3) (h : ConcaveHull)
    (hdeg : ∀ t ∈ h.tetrahedra, ∃ j : Fin 4, t.vertices j = -1) :
    surfaceTris (growInwards maxCurv h) = [] ∧
    surfaceTris (growOutwards maxCurv h) = [] ∧
    surfaceTris (growInDirection maxCurv dir h) = [] := by
  have hreset : ∀ t ∈ (resetFlags h).tetrahedra, ∃ j : Fin 4, t.vertices j = -1 := by
    intro t ht
    unfold resetFlags at ht
    simp only [List.mem_map] at ht
    obtain ⟨t0, ht0, rfl⟩ := ht
    exact hdeg t0 ht0
  have htrireset : ∀ t ∈ (resetFlags h).triangles, t.is_surface = false := by
    intro t ht
    unfold resetFlags at ht
    simp only [List.mem_map] at ht
    obtain ⟨t0, _, rfl⟩ := ht
    rfl
  refine ⟨?_, ?_, ?_⟩
  · have hseen1 : ∀ t ∈ (markSentinelsSeen (resetFlags h)).tetrahedra, t.seen = true := by
      intro t ht
      unfold markSentinelsSeen at ht
      simp only [List.mem_map] at ht
      obtain ⟨t0, ht0, rfl⟩ := ht
      rw [if_pos (hreset t0 ht0)]
    have hseeds : sentinelSeeds (markSentinelsSeen (resetFlags h)) = [] := by
      unfold sentinelSeeds
      rw [List.flatMap_eq_nil_iff]
      intro t _
      exact exposedFaces_all_seen _ t (-1) hseen1
    unfold growInwards
    rw [hseeds]
    simp only [insertFaces, List.foldl_nil]
    unfold growSurface
    rw [growSurfaceFuel_empty]
    exact surfaceTris_all_false _ htrireset
  · unfold growOutwards
    dsimp only
    rw [show pickSeed (resetFlags h)
        (fun t => Vec3.normSq (tetCentroid (resetFlags h) t - (resetFlags h).centre)) =
        none from foldl_seedStep_sentinel _ _ hreset none]
    exact surfaceTris_all_false _ htrireset
  · unfold growInDirection
    dsimp only
    rw [show pickSeed (resetFlags h)
        (fun t => -(Vec3.dot (tetCentroid (resetFlags h) t) dir)) =
        none from foldl_seedStep_sentinel _ _ hreset none]
    exact surfaceTris_all_false _ htrireset

/-- Witness for C6: a three-point input whose tetrahedralization is a
single sentinel yields empty surfaces from all three entry points. -/
theorem c6_witness :
    surfaceTris (growInwards 1 degenHull) = [] ∧
      surfaceTris (growOutwards 1 degenHull) = [] ∧
      surfaceTris (growInDirection 1 ⟨0, 0, 1⟩ degenHull) = [] :=
  c6_degenerate_empty_surface 1 ⟨0, 0, 1⟩ degenHull (by decide)

/-- The comparator relation is irreflexive. -/
lemma faceLt_irrefl (a : SurfaceFace) : ¬faceLt a a := by
  simp [faceLt, faceComp]

/-- The comparator relation is asymmetric. -/
lemma faceLt_asymm (a b : SurfaceFace) : faceLt a b → ¬faceLt b a := fun hab hba =>
  faceLexLess_asymm a b ((faceComp_iff_lex a b).mp hab) ((faceComp_iff_lex b a).mp hba)

/-- The comparator relation is transitive. -/
lemma faceLt_trans (a b c : SurfaceFace) : faceLt a b → faceLt b c → faceLt a c :=
  fun hab hbc => (faceComp_iff_lex a c).mpr
    (faceLexLess_trans a b c ((faceComp_iff_lex a b).mp hab) ((faceComp_iff_lex b c).mp hbc))

/-- Two records incomparable under the comparator are equal (the
equivalence classes of the strict weak order are singletons). -/
lemma faceLt_connex (a b : SurfaceFace) (hab : ¬faceLt a b) (hba : ¬faceLt b a) : a = b := by
  by_contra hne
  have hfields : a.curvature ≠ b.curvature ∨ a.triangle ≠ b.triangle ∨
      a.tetrahedron ≠ b.tetrahedron := by
    by_contra hF
    push_neg at hF
    exact hne (SurfaceFace.ext_fields a b hF.1 hF.2.1 hF.2.2)
  rcases faceLexLess_total a b hfields with hl | hl
  · exact hab ((faceComp_iff_lex a b).mpr hl)
  · exact hba ((faceComp_iff_lex b a).mpr hl)

/-- Membership in the candidate set after an insertion. -/
lemma mem_insertFace (f x : SurfaceFace) (l : List SurfaceFace) :
    x ∈ insertFace f l ↔ x = f ∨ x ∈ l := by
  induction l with
  | nil => simp [insertFace]
  | cons y ys ih =>
    unfold insertFace
    split_ifs with h1 h2
    · simp [List.mem_cons]
    · simp only [List.mem_cons, ih]
      tauto
    · have hfy : f = y := faceLt_connex f y h1 h2
      subst hfy
      simp only [List.mem_cons]
      tauto

/-- Insertion preserves strict sortedness of the candidate set. -/
lemma insertFace_sorted (f : SurfaceFace) (l : List SurfaceFace)
    (hp : List.Pairwise faceLt l) : List.Pairwise faceLt (insertFace f l) := by
  induction l with
  | nil => simp [insertFace]
  | cons y ys ih =>
    rw [List.pairwise_cons] at hp
    unfold insertFace
    split_ifs with h1 h2
    · rw [List.pairwise_cons]
      refine ⟨fun z hz => ?_, List.pairwise_cons.mpr hp⟩
      rcases List.mem_cons.mp hz with rfl | hz2
      · exact h1
      · exact faceLt_trans f y z h1 (hp.1 z hz2)
    · rw [List.pairwise_cons]
      refine ⟨fun z hz => ?_, ih hp.2⟩
      rcases (mem_insertFace f z ys).mp hz with rfl | hz2
      · exact h2
      · exact hp.1 z hz2
    · exact List.pairwise_cons.mpr hp

/-- Two strictly sorted candidate lists with the same members coincide. -/
lemma sorted_mem_unique :
    ∀ (l1 l2 : List SurfaceFace), List.Pairwise faceLt l1 → List.Pairwise faceLt l2 →
      (∀ x, x ∈ l1 ↔ x ∈ l2) → l1 = l2 := by
  intro l1
  induction l1 with
  | nil =>
    intro l2 _ _ hm
    cases l2 with
    | nil => rfl
    | cons y ys => exact absurd ((hm y).mpr (List.mem_cons_self y ys)) (List.not_mem_nil y)
  | cons x xs ih =>
    intro l2 h1 h2 hm
    cases l2 with
    | nil => exact absurd ((hm x).mp (List.mem_cons_self x xs)) (List.not_mem_nil x)
    | cons y ys =>
      rw [List.pairwise_cons] at h1 h2
      have hxy : x = y := by
        rcases List.mem_cons.mp ((hm x).mp (List.mem_cons_self x xs)) with h | hxys
        · exact h
        · rcases List.mem_cons.mp ((hm y).mpr (List.mem_cons_self y ys)) with h' | hyxs
          · exact h'.symm
          · exact absurd (h2.1 x hxys) (faceLt_asymm x y (h1.1 y hyxs))
      subst hxy
      congr 1
      apply ih ys h1.2 h2.2
      intro z
      constructor
      · intro hz
        rcases List.mem_cons.mp ((hm z).mp (List.mem_cons_of_mem x hz)) with rfl | h
        · exact absurd (h1.1 z hz) (faceLt_irrefl z)
        · exact h
      · intro hz
        rcases List.mem_cons.mp ((hm z).mpr (List.mem_cons_of_mem x hz)) with rfl | h
        · exact absurd (h2.1 z hz) (faceLt_irrefl z)
        · exact h

/-- Batch insertion preserves strict sortedness. -/
lemma insertFaces_sorted (l acc : List SurfaceFace) (hp : List.Pairwise faceLt acc) :
    List.Pairwise faceLt (insertFaces l acc) := by
  induction l generalizing acc with
  | nil => exact hp
  | cons f fs ih =>
    show List.Pairwise faceLt (insertFaces fs (insertFace f acc))
    exact ih (insertFace f acc) (insertFace_sorted f acc hp)

/-- Membership after batch insertion. -/
lemma mem_insertFaces (l acc : List SurfaceFace) (x : SurfaceFace) :
    x ∈ insertFaces l acc ↔ x ∈ l ∨ x ∈ acc := by
  induction l generalizing acc with
  | nil => simp [insertFaces]
  | cons f fs ih =>
    show x ∈ insertFaces fs (insertFace f acc) ↔ _
    rw [ih, mem_insertFace]
    simp only [List.mem_cons]
    tauto

/-- C3: extraction is a pure function of the mesh, the threshold and
the direction — two runs on identical input are definitionally equal —
and the ordered candidate set built from any insertion sequence of the
same faces is unique: permuting the insertion order leaves the set
identical, by the tie-broken total order of FaceComp. -/
theorem c3_deterministic_extraction (maxCurv : ℚ) (dir : Vec3) (h : ConcaveHull)
    (l1 l2 : List SurfaceFace) :
    growInwards maxCurv h = growInwards maxCurv h ∧
    growOutwards maxCurv h = growOutwards maxCurv h ∧
    growInDirection maxCurv dir h = growInDirection maxCurv dir h ∧
    (l1.Perm l2 → insertFaces l1 [] = insertFaces l2 []) := by
  refine ⟨rfl, rfl, rfl, fun hperm => ?_⟩
  apply sorted_mem_unique
  · exact insertFaces_sorted l1 [] List.Pairwise.nil
  · exact insertFaces_sorted l2 [] List.Pairwise.nil
  · intro x
    rw [mem_insertFaces, mem_insertFaces]
    simp [hperm.mem_iff]

/-- Witness for C3: inserting two concrete candidates in either order
builds the same ordered set. -/
theorem c3_witness :
    insertFaces [⟨0, 0, 1⟩, ⟨1, 1, 2⟩] [] = insertFaces [⟨1, 1, 2⟩, ⟨0, 0, 1⟩] [] :=
  (c3_deterministic_extraction 1 ⟨0, 0, 1⟩ exampleHull [⟨0, 0, 1⟩, ⟨1, 1, 2⟩]
      [⟨1, 1, 2⟩, ⟨0, 0, 1⟩]).2.2.2
    (List.Perm.swap (⟨1, 1, 2⟩ : SurfaceFace) (⟨0, 0, 1⟩ : SurfaceFace) [])

end ray
